import Mathlib

/-!
Verification of the dc_scrape repository: the session-and-archival engine
(SessionStore, ChannelCursorTable, CaptchaMonitor, UploadPipeline,
ArchiverWorker, ControlPlaneBridge) and the HomeScreen alert-list merge
logic of the bundled mobile app.

The archiver components are modelled from the design spec, since only the
engine's README ships in the sources; the HomeScreen functions are embedded
directly from `hollowscan_app/screens/HomeScreen.js`.
-/

namespace DcScrape

/-! ## HomeScreen alert list (embedded from HomeScreen.js) -/

/-- A product alert as handled by the HomeScreen list; only the `id` field
is inspected by the merge logic. -/
structure Product where
  id : String
  payload : String
  deriving DecidableEq, Repr

/-- Embeds the HomeScreen live-update subscribe callback
(`LiveProductService.subscribe` handler): build the set of ids already
present, keep only incoming products whose id is not present, prepend them,
and for non-premium users truncate to the first 4 entries. -/
def subscribeUpdate (isPremium : Bool) (prev newProducts : List Product) :
    List Product :=
  let existingIds := prev.map Product.id
  let uniqueNew := newProducts.filter (fun p => ¬ existingIds.contains p.id)
  let combined := uniqueNew ++ prev
  if !isPremium then combined.take 4 else combined

/-- Embeds the pagination merge in `HomeScreen.fetchAlerts` (non-reset
branch): filter the fetched page against ids already present, then append
the new items. -/
def fetchAlertsMerge (prev data : List Product) : List Product :=
  let existingIds := prev.map Product.id
  let newItems := data.filter (fun item => ¬ existingIds.contains item.id)
  prev ++ newItems

/-! ## Archiver engine data model (modelled from the spec) -/

/-- Modelled from the spec: the `ArchiverState` tagged variant (§3); the
engine's worker sources are absent from the repository snapshot (only its
README ships), so the state set follows the design document. -/
inductive ArchiverState
  | STARTING
  | AWAITING_LOGIN
  | SCRAPING
  | PAUSED_CAPTCHA
  | DEGRADED
  | STOPPING
  deriving DecidableEq, Repr

/-- Modelled from the spec: `MessageItem {channel_id, item_id, author,
content, attachments, observed_at}`; only the id fields drive control
flow, the rest is carried opaquely as `content`. -/
structure MessageItem where
  channel_id : Nat
  item_id : Nat
  content : String
  deriving DecidableEq, Repr

/-- Modelled from the spec: `Batch` — ordered bounded collection of
`MessageItem` plus metadata `{channel_id, batch_seq}` (§3). -/
structure Batch where
  channel_id : Nat
  batch_seq : Nat
  items : List MessageItem
  deriving DecidableEq, Repr

/-- Modelled from the spec: result of `UploadPipeline.flush` (§4.4). -/
inductive FlushResult
  | Ack
  | Failed
  deriving DecidableEq, Repr

/-- Storage key scheme: deterministic from `{channel_id, batch_seq}` (§6). -/
abbrev StorageKey := Nat × Nat

/-- Modelled from the spec: the external storage client's durable store,
a map from idempotency key to the stored payload. -/
abbrev Storage := List (StorageKey × List MessageItem)

/-- True when the storage already holds a payload under key `k`. -/
def storageContains (st : Storage) (k : StorageKey) : Bool :=
  st.any (fun e => e.1 == k)

/-- Modelled from the spec: the storage surface `put(key, bytes)` with
idempotent re-delivery — a put under an existing key is a no-op (§6, §8). -/
def storagePut (st : Storage) (k : StorageKey) (payload : List MessageItem) :
    Storage :=
  if storageContains st k then st else (k, payload) :: st

/-- Modelled from the spec: the idempotency key, deterministic from
`{channel_id, batch_seq}` alone (§4.4, glossary). -/
def idempotencyKey (b : Batch) : StorageKey := (b.channel_id, b.batch_seq)

/-- Modelled from the spec: batch serialization into the storage client's
expected representation; the byte format is an explicit non-goal, so the
payload is the item list itself. -/
def serializeBatch (b : Batch) : List MessageItem := b.items

/-- Modelled from the spec: the durable per-channel cursor table,
`channel_id ↦ last_item_id`. -/
abbrev CursorTable := List (Nat × Nat)

/-- Look up a channel's `last_item_id`; a channel never archived yet has
watermark 0. -/
def lookupCursor : CursorTable → Nat → Nat
  | [], _ => 0
  | e :: rest, ch => if e.1 = ch then e.2 else lookupCursor rest ch

/-- Modelled from the spec: advance a channel's cursor; the cursor
"advances monotonically" (§3), so the stored watermark only moves up. -/
def advanceCursor : CursorTable → Nat → Nat → CursorTable
  | [], ch, v => [(ch, v)]
  | e :: rest, ch, v =>
      if e.1 = ch then (ch, max e.2 v) :: rest else e :: advanceCursor rest ch v

/-- Per-channel next `batch_seq` counters. -/
abbrev SeqTable := List (Nat × Nat)

/-- Next batch sequence number for a channel (0 when none issued yet). -/
def lookupSeq : SeqTable → Nat → Nat
  | [], _ => 0
  | e :: rest, ch => if e.1 = ch then e.2 else lookupSeq rest ch

/-- Consume a channel's batch sequence number. -/
def bumpSeq : SeqTable → Nat → SeqTable
  | [], ch => [(ch, 1)]
  | e :: rest, ch =>
      if e.1 = ch then (ch, e.2 + 1) :: rest else e :: bumpSeq rest ch

/-- Modelled from the spec: the worker's whole mutable state — archiver
state with its monotonic transition sequence number, cursor table, batch
sequence counters, retained (failed) batches, the storage client's store,
the per-pause alert flag and alert counter, and the channels marked
`DEGRADED` for the current cycle. -/
structure WorkerState where
  archiver_state : ArchiverState
  state_seq : Nat
  cursors : CursorTable
  seqs : SeqTable
  pending : List Batch
  storage : Storage
  alert_sent : Bool
  alerts_dispatched : Nat
  degraded : List Nat
  deriving DecidableEq, Repr

/-- Largest item id in a list of items (0 for an empty list). -/
def maxItemId (items : List MessageItem) : Nat :=
  items.foldr (fun it m => max it.item_id m) 0

/-- Item ordering within a channel: by item id, oldest (smallest) first. -/
def itemLE (a b : MessageItem) : Prop := a.item_id ≤ b.item_id

instance : DecidableRel itemLE := fun a b => Nat.decLe a.item_id b.item_id

instance : IsTotal MessageItem itemLE := ⟨fun a b => Nat.le_total a.item_id b.item_id⟩

instance : IsTrans MessageItem itemLE := ⟨fun _ _ _ h₁ h₂ => Nat.le_trans h₁ h₂⟩

/-! ## CaptchaMonitor, SessionStore, UploadPipeline (modelled from the spec) -/

/-- Modelled from the spec: verdict of `CaptchaMonitor.inspect` (§4.3). -/
inductive CaptchaVerdict
  | Clear
  | ChallengeDetected
  deriving DecidableEq, Repr

/-- Modelled from the spec: what the automation capability currently
observes; only the presence of a known challenge marker matters here. -/
structure AutomationSnapshot where
  challenge_marker : Bool
  deriving DecidableEq, Repr

namespace CaptchaMonitor

/-- Modelled from the spec: `inspect(automation_snapshot)` is a pure
function over the snapshot, reporting `ChallengeDetected` exactly when the
challenge marker is present (§4.3). It performs no state mutation. -/
def inspect (snap : AutomationSnapshot) : CaptchaVerdict :=
  if snap.challenge_marker then CaptchaVerdict.ChallengeDetected
  else CaptchaVerdict.Clear

end CaptchaMonitor

/-- Modelled from the spec: the opaque authenticated-session blob plus a
`valid` flag (§3). -/
structure Session where
  blob : String
  valid : Bool
  deriving DecidableEq, Repr

/-- Modelled from the spec: outcome of `SessionStore.load` (§4.1). -/
inductive LoadResult
  | Found (s : Session)
  | NotFound
  deriving DecidableEq, Repr

namespace SessionStore

/-- Modelled from the spec: `load() -> Session | NotFound` — reads the
persisted blob; absent (`none`) or unparseable (decoder returns `none`)
yields `NotFound`; corruption never raises (§4.1, §7). The blob decoder is
passed in since the persisted format is opaque. -/
def load (parse : String → Option Session) (persisted : Option String) :
    LoadResult :=
  match persisted with
  | none => LoadResult.NotFound
  | some raw =>
      match parse raw with
      | none => LoadResult.NotFound
      | some s => LoadResult.Found s

end SessionStore

/-- Modelled from the spec: the worker's startup transition out of
`STARTING` — `AWAITING_LOGIN` when the session is missing/corrupt or the
automation capability reports the restored session invalid, `SCRAPING`
otherwise (§4.2). -/
def startupTransition (r : LoadResult) (sessionStillValid : Session → Bool) :
    ArchiverState :=
  match r with
  | LoadResult.NotFound => ArchiverState.AWAITING_LOGIN
  | LoadResult.Found s =>
      if s.valid && sessionStillValid s then ArchiverState.SCRAPING
      else ArchiverState.AWAITING_LOGIN

namespace UploadPipeline

/-- Modelled from the spec: `flush(Batch) -> Ack | Failed` (§4.4) —
serializes the batch, computes the idempotency key from
`{channel_id, batch_seq}`, calls the storage client, retrying failed
attempts internally up to the budget; `attempts` lists each storage-call
attempt's outcome. Returns `Ack` only on a confirmed write; the only side
effect is the storage call — the cursor table, like every other worker
field, is untouched. -/
def flush (ws : WorkerState) (b : Batch) (attempts : List Bool) :
    FlushResult × WorkerState :=
  if attempts.any (fun a => a) then
    (FlushResult.Ack,
     { ws with storage := storagePut ws.storage (idempotencyKey b) (serializeBatch b) })
  else
    (FlushResult.Failed, ws)

end UploadPipeline

/-! ## ArchiverWorker main loop (modelled from the spec) -/

namespace ArchiverWorker

/-- Modelled from the spec: dispatch one human-intervention alert unless
the monotonic "alert already sent for this pause" flag is set (§4.3). -/
def dispatchAlert (ws : WorkerState) : WorkerState :=
  if ws.alert_sent then ws
  else { ws with
          alerts_dispatched := ws.alerts_dispatched + 1
          alert_sent := true }

/-- Modelled from the spec: on `ChallengeDetected`, move the global state
to `PAUSED_CAPTCHA` (bumping the transition sequence number) and dispatch
at most one alert for the pause episode (§4.2 step b, §4.3). -/
def pauseCaptcha (ws : WorkerState) : WorkerState :=
  dispatchAlert
    { ws with
        archiver_state := ArchiverState.PAUSED_CAPTCHA
        state_seq := ws.state_seq + 1 }

/-- Modelled from the spec: mark a channel `DEGRADED` for the current
cycle after its retry budget is exhausted; the worker keeps running (§4.2,
§7 `PersistentChannelError`). -/
def markDegraded (ws : WorkerState) (ch : Nat) : WorkerState :=
  { ws with degraded := ws.degraded ++ [ch] }

/-- Modelled from the spec: flush one batch and act on the outcome — the
caller advances the channel cursor strictly after `Ack`, covering the
batch's items; on `Failed` the batch is retained in `pending`, and the
cursor is not advanced (§4.4, §3 global invariant). Every cursor mutation
of the worker goes through this function. -/
def handleBatch (ws : WorkerState) (b : Batch) (attempts : List Bool) :
    WorkerState :=
  match UploadPipeline.flush ws b attempts with
  | (FlushResult.Ack, ws') =>
      { ws' with
          cursors := advanceCursor ws'.cursors b.channel_id (maxItemId b.items) }
  | (FlushResult.Failed, ws') =>
      { ws' with pending := ws'.pending ++ [b] }

/-- Modelled from the spec: retry retained batches in order; stop at the
first flush that fails again, keeping that batch and the ones after it
retained for the next cycle (§4.4). `plan` gives the storage-attempt
outcomes for the flush of the batch with a given `batch_seq`. -/
def retryLoop (ws : WorkerState) (batches : List Batch)
    (plan : Nat → List Bool) : WorkerState :=
  match batches with
  | [] => ws
  | b :: rest =>
      let ws' := handleBatch ws b (plan b.batch_seq)
      match (UploadPipeline.flush ws b (plan b.batch_seq)).1 with
      | FlushResult.Ack => retryLoop ws' rest plan
      | FlushResult.Failed => { ws' with pending := ws'.pending ++ rest }

/-- Modelled from the spec: at the start of a channel's turn, retry the
batches retained for it by earlier failed flushes ("retained in memory and
retried on the next scrape cycle for that channel", §4.4). -/
def retryPending (ws : WorkerState) (ch : Nat) (plan : Nat → List Bool) :
    WorkerState :=
  let mine := ws.pending.filter (fun b => b.channel_id == ch)
  let others := ws.pending.filter (fun b => ¬ (b.channel_id == ch))
  retryLoop { ws with pending := others } mine plan

/-- Worker for `chunkItems`, structurally recursive on a fuel bound (the
list length) so that it evaluates by plain reduction; each step consumes
at least the head, so the fuel is never exhausted when it starts at the
list's length. -/
def chunkItemsFuel (T : Nat) : Nat → List MessageItem → List (List MessageItem)
  | _, [] => []
  | 0, x :: xs => [x :: xs]
  | fuel + 1, x :: xs =>
      (x :: xs.take (T - 1)) :: chunkItemsFuel T fuel (xs.drop (T - 1))

/-- Split a channel's freshly fetched items into flush-sized chunks: a
chunk is closed as soon as it reaches the size threshold `T`, and the
final partial chunk is what the end-of-cycle flush hands over (§3, §4.2
step d). -/
def chunkItems (T : Nat) (l : List MessageItem) : List (List MessageItem) :=
  chunkItemsFuel T l.length l

/-- Modelled from the spec: the automation capability's
`read_items_since(cursor)` — the items of the channel with id greater than
the cursor, oldest (smallest id) first (§4.2 step c, §9). -/
def readItemsSince (avail : List MessageItem) (cursor : Nat) :
    List MessageItem :=
  List.insertionSort itemLE (avail.filter (fun m => cursor < m.item_id))

/-- Modelled from the spec: flush the channel's chunks in order — each
full chunk immediately, the final partial chunk at end of cycle. Each
chunk becomes an immutable `Batch` stamped with the channel's next
`batch_seq`. After a `Failed` flush the remaining chunks are not uploaded
this cycle (the cursor has not moved past them, so they are re-fetched
next cycle); the failed batch itself is retained by `handleBatch`. -/
def flushChunks (ws : WorkerState) (ch : Nat)
    (chunks : List (List MessageItem)) (plan : Nat → List Bool) :
    WorkerState :=
  match chunks with
  | [] => ws
  | c :: rest =>
      let seq := lookupSeq ws.seqs ch
      let b : Batch := ⟨ch, seq, c⟩
      let ws0 := { ws with seqs := bumpSeq ws.seqs ch }
      let ws' := handleBatch ws0 b (plan seq)
      match (UploadPipeline.flush ws0 b (plan seq)).1 with
      | FlushResult.Ack => flushChunks ws' ch rest plan
      | FlushResult.Failed => ws'

/-- Environment of one channel's turn inside a scrape cycle: the
automation snapshot observed at the navigate step, the per-attempt
navigation outcomes (the exponential-backoff retry budget), the items
currently observable in the channel, and the storage-attempt outcomes for
each flush, indexed by `batch_seq`. -/
structure ChannelInput where
  snapshot : AutomationSnapshot
  nav_attempts : List Bool
  avail : List MessageItem
  flushPlan : Nat → List Bool

/-- Modelled from the spec: one channel's turn in the main loop (§4.2
steps a–d): runs only while `SCRAPING`; a challenge verdict pauses the
whole worker; an exhausted navigation retry budget marks the channel
`DEGRADED` and moves on; otherwise retained batches are retried, then new
items beyond the cursor are fetched oldest-first, batched, and flushed. -/
def processChannel (T : Nat) (ws : WorkerState) (ch : Nat)
    (inp : ChannelInput) : WorkerState :=
  if ws.archiver_state = ArchiverState.SCRAPING then
    match CaptchaMonitor.inspect inp.snapshot with
    | CaptchaVerdict.ChallengeDetected => pauseCaptcha ws
    | CaptchaVerdict.Clear =>
        if inp.nav_attempts.any (fun a => a) then
          let ws1 := retryPending ws ch inp.flushPlan
          if (ws1.pending.filter (fun b => b.channel_id == ch)).isEmpty then
            let items := readItemsSince inp.avail (lookupCursor ws1.cursors ch)
            flushChunks ws1 ch (chunkItems T items) inp.flushPlan
          else ws1
        else markDegraded ws ch
  else ws

/-- Modelled from the spec: one full scrape cycle over the configured
channels in configuration order; `DEGRADED` marks are scoped to a single
cycle, so the cycle starts with a clean mark set (§4.2). -/
def runCycle (T : Nat) (ws : WorkerState)
    (inputs : List (Nat × ChannelInput)) : WorkerState :=
  inputs.foldl (fun s p => processChannel T s p.1 p.2)
    { ws with degraded := [] }

end ArchiverWorker

/-! ## ControlPlaneBridge (modelled from the spec) -/

/-- Modelled from the spec: signals the worker receives from the external
control plane (§4.5). -/
inductive Signal
  | OnLoginCompleted
  | OnCaptchaResolved
  | RequestShutdown
  deriving DecidableEq, Repr

/-- Modelled from the spec: how the worker applies a control-plane signal
at a checkpoint — login completion leaves `AWAITING_LOGIN`, captcha
resolution is the only signal that leaves `PAUSED_CAPTCHA` for `SCRAPING`
(clearing the per-pause alert flag there and only there), and shutdown
moves any state to `STOPPING` (§4.2, §4.3, §4.5). -/
def applySignal (ws : WorkerState) (s : Signal) : WorkerState :=
  match s with
  | Signal.OnLoginCompleted =>
      if ws.archiver_state = ArchiverState.AWAITING_LOGIN then
        { ws with
            archiver_state := ArchiverState.SCRAPING
            state_seq := ws.state_seq + 1 }
      else ws
  | Signal.OnCaptchaResolved =>
      if ws.archiver_state = ArchiverState.PAUSED_CAPTCHA then
        { ws with
            archiver_state := ArchiverState.SCRAPING
            state_seq := ws.state_seq + 1
            alert_sent := false }
      else ws
  | Signal.RequestShutdown =>
      { ws with
          archiver_state := ArchiverState.STOPPING
          state_seq := ws.state_seq + 1 }

/-- Modelled from the spec: process restart. The durable state survives —
the persisted session-independent cursor table (written immediately after
each confirmed upload), the per-channel batch sequence counters persisted
with it, and the external storage client's store; everything held only in
memory (retained batches, alert flag, degraded marks) is lost, and the
worker re-enters `STARTING` (§2, §6). -/
def restart (ws : WorkerState) : WorkerState :=
  { archiver_state := ArchiverState.STARTING
    state_seq := 0
    cursors := ws.cursors
    seqs := ws.seqs
    pending := []
    storage := ws.storage
    alert_sent := false
    alerts_dispatched := 0
    degraded := [] }

/-- All batches the worker currently holds — retained in memory or already
written to storage — contain at most `T` items. -/
def batchesBounded (T : Nat) (ws : WorkerState) : Prop :=
  (∀ b ∈ ws.pending, b.items.length ≤ T) ∧
  (∀ e ∈ ws.storage, e.2.length ≤ T)

instance (T : Nat) (ws : WorkerState) : Decidable (batchesBounded T ws) := by
  unfold batchesBounded
  infer_instance

/-! ## Concrete fixtures for evaluated corollaries -/

open ArchiverWorker

/-- A sample message item on channel 1. -/
def itemA : MessageItem := ⟨1, 5, "hello"⟩

/-- A later sample message item on channel 1. -/
def itemB : MessageItem := ⟨1, 7, "world"⟩

/-- A third sample message item on channel 1. -/
def itemC : MessageItem := ⟨1, 9, "again"⟩

/-- A sample batch holding both items, first batch of channel 1. -/
def batch1 : Batch := ⟨1, 0, [itemA, itemB]⟩

/-- A fresh scraping worker with empty tables. -/
def ws0 : WorkerState :=
  ⟨ArchiverState.SCRAPING, 0, [], [], [], [], false, 0, []⟩

/-- The worker of `ws0` with `batch1` retained after a failed flush. -/
def wsPending : WorkerState := { ws0 with pending := [batch1] }

/-- The worker of `ws0` paused on a captcha with the alert already sent. -/
def wsPaused : WorkerState :=
  { ws0 with
      archiver_state := ArchiverState.PAUSED_CAPTCHA
      alert_sent := true }

/-- A channel turn that observes a challenge marker. -/
def inpChallenge : ChannelInput :=
  ⟨⟨true⟩, [true], [], fun _ => [true]⟩

/-- A clean channel turn: no challenge, navigation succeeds, two new
items, every flush attempt succeeds. -/
def inpClear : ChannelInput :=
  ⟨⟨false⟩, [true], [itemA, itemB], fun _ => [true]⟩

/-- A channel turn whose navigation attempts all fail. -/
def inpNavFail : ChannelInput :=
  ⟨⟨false⟩, [false, false], [], fun _ => [true]⟩

/-- A session-blob decoder that rejects every blob. -/
def parseNone : String → Option Session := fun _ => none

/-- An automation validity check that accepts every session. -/
def validAlways : Session → Bool := fun _ => true

/-! ## Cursor-table and storage lemmas -/

theorem lookupCursor_advanceCursor_self (t : CursorTable) (ch v : Nat) :
    lookupCursor (advanceCursor t ch v) ch = max (lookupCursor t ch) v := by
  induction t with
  | nil => simp [advanceCursor, lookupCursor]
  | cons e rest ih =>
      by_cases h : e.1 = ch
      · simp [advanceCursor, lookupCursor, h]
      · simp [advanceCursor, lookupCursor, h, ih]

theorem lookupCursor_advanceCursor_le (t : CursorTable) (ch v ch' : Nat) :
    lookupCursor t ch' ≤ lookupCursor (advanceCursor t ch v) ch' := by
  induction t with
  | nil => simp [advanceCursor, lookupCursor]
  | cons e rest ih =>
      by_cases h : e.1 = ch
      · by_cases h' : ch = ch'
        · subst h'
          simp [advanceCursor, lookupCursor, h]
        · have hne : ¬ e.1 = ch' := fun hh => h' (h ▸ hh)
          simp [advanceCursor, lookupCursor, h, h', hne]
      · by_cases h' : e.1 = ch'
        · have hne : ¬ ch' = ch := fun hh => h (h'.trans hh)
          simp [advanceCursor, lookupCursor, h, h', hne]
        · simp [advanceCursor, lookupCursor, h, h', ih]

theorem storageContains_cons_self (st : Storage) (k : StorageKey)
    (p : List MessageItem) :
    storageContains ((k, p) :: st) k = true := by
  simp [storageContains, List.any_cons]

theorem storagePut_of_contains (st : Storage) (k : StorageKey)
    (p : List MessageItem) (h : storageContains st k = true) :
    storagePut st k p = st := by
  simp [storagePut, h]

theorem storageContains_storagePut_self (st : Storage) (k : StorageKey)
    (p : List MessageItem) :
    storageContains (storagePut st k p) k = true := by
  by_cases h : storageContains st k = true
  · rw [storagePut, if_pos h]
    exact h
  · rw [storagePut, if_neg h]
    exact storageContains_cons_self st k p

theorem storagePut_idem (st : Storage) (k : StorageKey)
    (p q : List MessageItem) :
    storagePut (storagePut st k p) k q = storagePut st k p :=
  storagePut_of_contains (storagePut st k p) k q
    (storageContains_storagePut_self st k p)

/-! ## UploadPipeline.flush lemmas -/

theorem flush_of_any (ws : WorkerState) (b : Batch) (attempts : List Bool)
    (h : attempts.any (fun a => a) = true) :
    UploadPipeline.flush ws b attempts =
      (FlushResult.Ack,
       { ws with
           storage := storagePut ws.storage (idempotencyKey b) (serializeBatch b) }) := by
  unfold UploadPipeline.flush
  simp [h]

theorem flush_of_not_any (ws : WorkerState) (b : Batch) (attempts : List Bool)
    (h : attempts.any (fun a => a) = false) :
    UploadPipeline.flush ws b attempts = (FlushResult.Failed, ws) := by
  unfold UploadPipeline.flush
  simp [h]

theorem flush_cursors (ws : WorkerState) (b : Batch) (attempts : List Bool) :
    ((UploadPipeline.flush ws b attempts).2).cursors = ws.cursors := by
  unfold UploadPipeline.flush
  split <;> rfl

theorem flush_pending (ws : WorkerState) (b : Batch) (attempts : List Bool) :
    ((UploadPipeline.flush ws b attempts).2).pending = ws.pending := by
  unfold UploadPipeline.flush
  split <;> rfl

theorem flush_archiver_state (ws : WorkerState) (b : Batch)
    (attempts : List Bool) :
    ((UploadPipeline.flush ws b attempts).2).archiver_state =
      ws.archiver_state := by
  unfold UploadPipeline.flush
  split <;> rfl

/-! ## handleBatch lemmas -/

theorem handleBatch_ack (ws : WorkerState) (b : Batch) (attempts : List Bool)
    (h : attempts.any (fun a => a) = true) :
    ArchiverWorker.handleBatch ws b attempts =
      { ws with
          storage := storagePut ws.storage (idempotencyKey b) (serializeBatch b)
          cursors := advanceCursor ws.cursors b.channel_id (maxItemId b.items) } := by
  unfold ArchiverWorker.handleBatch
  rw [flush_of_any ws b attempts h]

theorem handleBatch_failed (ws : WorkerState) (b : Batch)
    (attempts : List Bool) (h : attempts.any (fun a => a) = false) :
    ArchiverWorker.handleBatch ws b attempts =
      { ws with pending := ws.pending ++ [b] } := by
  unfold ArchiverWorker.handleBatch
  rw [flush_of_not_any ws b attempts h]

theorem handleBatch_cursor_le (ws : WorkerState) (b : Batch)
    (attempts : List Bool) (ch : Nat) :
    lookupCursor ws.cursors ch ≤
      lookupCursor (ArchiverWorker.handleBatch ws b attempts).cursors ch := by
  by_cases h : attempts.any (fun a => a) = true
  · rw [handleBatch_ack ws b attempts h]
    exact lookupCursor_advanceCursor_le ws.cursors b.channel_id (maxItemId b.items) ch
  · have h' : attempts.any (fun a => a) = false := by
      simpa using h
    rw [handleBatch_failed ws b attempts h']

/-! ## Field-preservation lemmas for the small worker operations -/

theorem flush_fst_eq_ack_iff (ws : WorkerState) (b : Batch)
    (attempts : List Bool) :
    (UploadPipeline.flush ws b attempts).1 = FlushResult.Ack ↔
      attempts.any (fun a => a) = true := by
  unfold UploadPipeline.flush
  split
  · next h => simp [h]
  · next h => simp [h]

theorem flush_fst_eq_failed_iff (ws : WorkerState) (b : Batch)
    (attempts : List Bool) :
    (UploadPipeline.flush ws b attempts).1 = FlushResult.Failed ↔
      attempts.any (fun a => a) = false := by
  unfold UploadPipeline.flush
  split
  · next h => simp [h]
  · next h => simpa using h

theorem dispatchAlert_cursors (ws : WorkerState) :
    (dispatchAlert ws).cursors = ws.cursors := by
  unfold dispatchAlert
  split <;> rfl

theorem dispatchAlert_storage (ws : WorkerState) :
    (dispatchAlert ws).storage = ws.storage := by
  unfold dispatchAlert
  split <;> rfl

theorem dispatchAlert_pending (ws : WorkerState) :
    (dispatchAlert ws).pending = ws.pending := by
  unfold dispatchAlert
  split <;> rfl

theorem dispatchAlert_archiver_state (ws : WorkerState) :
    (dispatchAlert ws).archiver_state = ws.archiver_state := by
  unfold dispatchAlert
  split <;> rfl

theorem dispatchAlert_seqs (ws : WorkerState) :
    (dispatchAlert ws).seqs = ws.seqs := by
  unfold dispatchAlert
  split <;> rfl

theorem dispatchAlert_degraded (ws : WorkerState) :
    (dispatchAlert ws).degraded = ws.degraded := by
  unfold dispatchAlert
  split <;> rfl

theorem dispatchAlert_alert_sent (ws : WorkerState) :
    (dispatchAlert ws).alert_sent = true ∨ (dispatchAlert ws) = ws := by
  unfold dispatchAlert
  split
  · next h => right; rfl
  · left; rfl

theorem dispatchAlert_of_sent (ws : WorkerState) (h : ws.alert_sent = true) :
    dispatchAlert ws = ws := by
  unfold dispatchAlert
  rw [if_pos h]

theorem dispatchAlert_of_not_sent (ws : WorkerState)
    (h : ws.alert_sent = false) :
    dispatchAlert ws =
      { ws with
          alerts_dispatched := ws.alerts_dispatched + 1
          alert_sent := true } := by
  unfold dispatchAlert
  rw [if_neg (by simp [h])]

theorem pauseCaptcha_archiver_state (ws : WorkerState) :
    (pauseCaptcha ws).archiver_state = ArchiverState.PAUSED_CAPTCHA := by
  unfold pauseCaptcha
  rw [dispatchAlert_archiver_state]

theorem pauseCaptcha_cursors (ws : WorkerState) :
    (pauseCaptcha ws).cursors = ws.cursors := by
  unfold pauseCaptcha
  rw [dispatchAlert_cursors]

theorem pauseCaptcha_storage (ws : WorkerState) :
    (pauseCaptcha ws).storage = ws.storage := by
  unfold pauseCaptcha
  rw [dispatchAlert_storage]

theorem pauseCaptcha_pending (ws : WorkerState) :
    (pauseCaptcha ws).pending = ws.pending := by
  unfold pauseCaptcha
  rw [dispatchAlert_pending]

theorem pauseCaptcha_of_sent (ws : WorkerState) (h : ws.alert_sent = true) :
    pauseCaptcha ws =
      { ws with
          archiver_state := ArchiverState.PAUSED_CAPTCHA
          state_seq := ws.state_seq + 1 } := by
  unfold pauseCaptcha
  exact dispatchAlert_of_sent _ h

theorem pauseCaptcha_of_not_sent (ws : WorkerState)
    (h : ws.alert_sent = false) :
    pauseCaptcha ws =
      { ws with
          archiver_state := ArchiverState.PAUSED_CAPTCHA
          state_seq := ws.state_seq + 1
          alerts_dispatched := ws.alerts_dispatched + 1
          alert_sent := true } := by
  unfold pauseCaptcha
  exact dispatchAlert_of_not_sent _ h

/-! ## processChannel branch characterizations -/

theorem processChannel_not_scraping (T : Nat) (ws : WorkerState) (ch : Nat)
    (inp : ChannelInput)
    (h : ws.archiver_state ≠ ArchiverState.SCRAPING) :
    processChannel T ws ch inp = ws := by
  unfold processChannel
  rw [if_neg h]

theorem processChannel_challenge (T : Nat) (ws : WorkerState) (ch : Nat)
    (inp : ChannelInput)
    (hs : ws.archiver_state = ArchiverState.SCRAPING)
    (hc : CaptchaMonitor.inspect inp.snapshot =
      CaptchaVerdict.ChallengeDetected) :
    processChannel T ws ch inp = pauseCaptcha ws := by
  unfold processChannel
  rw [if_pos hs, hc]

theorem processChannel_nav_exhausted (T : Nat) (ws : WorkerState) (ch : Nat)
    (inp : ChannelInput)
    (hs : ws.archiver_state = ArchiverState.SCRAPING)
    (hc : CaptchaMonitor.inspect inp.snapshot = CaptchaVerdict.Clear)
    (hn : inp.nav_attempts.any (fun a => a) = false) :
    processChannel T ws ch inp = markDegraded ws ch := by
  unfold processChannel
  rw [if_pos hs, hc]
  simp [hn]

theorem processChannel_normal (T : Nat) (ws : WorkerState) (ch : Nat)
    (inp : ChannelInput)
    (hs : ws.archiver_state = ArchiverState.SCRAPING)
    (hc : CaptchaMonitor.inspect inp.snapshot = CaptchaVerdict.Clear)
    (hn : inp.nav_attempts.any (fun a => a) = true) :
    processChannel T ws ch inp =
      (if ((retryPending ws ch inp.flushPlan).pending.filter
            (fun b => b.channel_id == ch)).isEmpty then
        flushChunks (retryPending ws ch inp.flushPlan) ch
          (chunkItems T
            (readItemsSince inp.avail
              (lookupCursor (retryPending ws ch inp.flushPlan).cursors ch)))
          inp.flushPlan
      else retryPending ws ch inp.flushPlan) := by
  unfold processChannel
  rw [if_pos hs, hc]
  simp [hn]

/-! ## Cursor monotonicity through the worker loop -/

theorem retryLoop_cursor_le (plan : Nat → List Bool) (batches : List Batch)
    (ws : WorkerState) (ch : Nat) :
    lookupCursor ws.cursors ch ≤
      lookupCursor (retryLoop ws batches plan).cursors ch := by
  induction batches generalizing ws with
  | nil => simp [retryLoop]
  | cons b rest ih =>
      simp only [retryLoop]
      split
      · exact le_trans (handleBatch_cursor_le ws b (plan b.batch_seq) ch)
          (ih _)
      · exact handleBatch_cursor_le ws b (plan b.batch_seq) ch

theorem retryPending_cursor_le (ws : WorkerState) (ch0 ch : Nat)
    (plan : Nat → List Bool) :
    lookupCursor ws.cursors ch ≤
      lookupCursor (retryPending ws ch0 plan).cursors ch := by
  simp only [retryPending]
  have h := retryLoop_cursor_le plan
    (ws.pending.filter (fun b => b.channel_id == ch0))
    { ws with pending := ws.pending.filter (fun b => ¬ (b.channel_id == ch0)) }
    ch
  simpa using h

theorem flushChunks_cursor_le (plan : Nat → List Bool)
    (chunks : List (List MessageItem)) (ws : WorkerState) (ch0 ch : Nat) :
    lookupCursor ws.cursors ch ≤
      lookupCursor (flushChunks ws ch0 chunks plan).cursors ch := by
  induction chunks generalizing ws with
  | nil => simp [flushChunks]
  | cons c rest ih =>
      simp only [flushChunks]
      split
      · exact le_trans
          (handleBatch_cursor_le { ws with seqs := bumpSeq ws.seqs ch0 }
            ⟨ch0, lookupSeq ws.seqs ch0, c⟩ (plan (lookupSeq ws.seqs ch0)) ch)
          (ih _)
      · exact handleBatch_cursor_le { ws with seqs := bumpSeq ws.seqs ch0 }
          ⟨ch0, lookupSeq ws.seqs ch0, c⟩ (plan (lookupSeq ws.seqs ch0)) ch

theorem processChannel_cursor_le (T : Nat) (ws : WorkerState) (ch0 ch : Nat)
    (inp : ChannelInput) :
    lookupCursor ws.cursors ch ≤
      lookupCursor (processChannel T ws ch0 inp).cursors ch := by
  by_cases hs : ws.archiver_state = ArchiverState.SCRAPING
  · cases hc : CaptchaMonitor.inspect inp.snapshot with
    | ChallengeDetected =>
        rw [processChannel_challenge T ws ch0 inp hs hc, pauseCaptcha_cursors]
    | Clear =>
        by_cases hn : inp.nav_attempts.any (fun a => a) = true
        · rw [processChannel_normal T ws ch0 inp hs hc hn]
          split
          · exact le_trans (retryPending_cursor_le ws ch0 ch inp.flushPlan)
              (flushChunks_cursor_le inp.flushPlan _ _ ch0 ch)
          · exact retryPending_cursor_le ws ch0 ch inp.flushPlan
        · have hn' : inp.nav_attempts.any (fun a => a) = false := by
            simpa using hn
          rw [processChannel_nav_exhausted T ws ch0 inp hs hc hn']
          exact le_refl _
  · rw [processChannel_not_scraping T ws ch0 inp hs]

theorem foldl_processChannel_cursor_le (T : Nat)
    (inputs : List (Nat × ChannelInput)) (ws : WorkerState) (ch : Nat) :
    lookupCursor ws.cursors ch ≤
      lookupCursor
        (inputs.foldl (fun s p => processChannel T s p.1 p.2) ws).cursors
        ch := by
  induction inputs generalizing ws with
  | nil => simp
  | cons p rest ih =>
      exact le_trans (processChannel_cursor_le T ws p.1 ch p.2) (ih _)

theorem runCycle_cursor_le (T : Nat) (ws : WorkerState)
    (inputs : List (Nat × ChannelInput)) (ch : Nat) :
    lookupCursor ws.cursors ch ≤
      lookupCursor (runCycle T ws inputs).cursors ch := by
  unfold runCycle
  exact foldl_processChannel_cursor_le T inputs { ws with degraded := [] } ch

/-! ## The worker is inert while paused -/

theorem processChannel_paused (T : Nat) (ws : WorkerState) (ch : Nat)
    (inp : ChannelInput)
    (h : ws.archiver_state = ArchiverState.PAUSED_CAPTCHA) :
    processChannel T ws ch inp = ws :=
  processChannel_not_scraping T ws ch inp (by rw [h]; exact fun hh => nomatch hh)

theorem foldl_processChannel_paused (T : Nat)
    (inputs : List (Nat × ChannelInput)) (ws : WorkerState)
    (h : ws.archiver_state = ArchiverState.PAUSED_CAPTCHA) :
    inputs.foldl (fun s p => processChannel T s p.1 p.2) ws = ws := by
  induction inputs with
  | nil => rfl
  | cons p rest ih =>
      simp only [List.foldl_cons, processChannel_paused T ws p.1 p.2 h]
      exact ih

theorem runCycle_paused (T : Nat) (ws : WorkerState)
    (inputs : List (Nat × ChannelInput))
    (h : ws.archiver_state = ArchiverState.PAUSED_CAPTCHA) :
    runCycle T ws inputs = { ws with degraded := [] } := by
  unfold runCycle
  exact foldl_processChannel_paused T inputs { ws with degraded := [] } h

/-! ## Fields untouched by the flush machinery -/

theorem handleBatch_preserves (ws : WorkerState) (b : Batch)
    (attempts : List Bool) :
    (handleBatch ws b attempts).archiver_state = ws.archiver_state ∧
    (handleBatch ws b attempts).state_seq = ws.state_seq ∧
    (handleBatch ws b attempts).alert_sent = ws.alert_sent ∧
    (handleBatch ws b attempts).alerts_dispatched = ws.alerts_dispatched ∧
    (handleBatch ws b attempts).degraded = ws.degraded ∧
    (handleBatch ws b attempts).seqs = ws.seqs := by
  by_cases h : attempts.any (fun a => a) = true
  · rw [handleBatch_ack ws b attempts h]
    simp
  · have h' : attempts.any (fun a => a) = false := by simpa using h
    rw [handleBatch_failed ws b attempts h']
    simp

theorem retryLoop_preserves (plan : Nat → List Bool) (batches : List Batch)
    (ws : WorkerState) :
    (retryLoop ws batches plan).archiver_state = ws.archiver_state ∧
    (retryLoop ws batches plan).state_seq = ws.state_seq ∧
    (retryLoop ws batches plan).alert_sent = ws.alert_sent ∧
    (retryLoop ws batches plan).alerts_dispatched = ws.alerts_dispatched ∧
    (retryLoop ws batches plan).degraded = ws.degraded ∧
    (retryLoop ws batches plan).seqs = ws.seqs := by
  induction batches generalizing ws with
  | nil => simp [retryLoop]
  | cons b rest ih =>
      simp only [retryLoop]
      split
      · obtain ⟨h1, h2, h3, h4, h5, h6⟩ := ih (handleBatch ws b (plan b.batch_seq))
        obtain ⟨g1, g2, g3, g4, g5, g6⟩ := handleBatch_preserves ws b (plan b.batch_seq)
        exact ⟨h1.trans g1, h2.trans g2, h3.trans g3, h4.trans g4,
          h5.trans g5, h6.trans g6⟩
      · obtain ⟨g1, g2, g3, g4, g5, g6⟩ := handleBatch_preserves ws b (plan b.batch_seq)
        exact ⟨g1, g2, g3, g4, g5, g6⟩

theorem retryPending_preserves (ws : WorkerState) (ch : Nat)
    (plan : Nat → List Bool) :
    (retryPending ws ch plan).archiver_state = ws.archiver_state ∧
    (retryPending ws ch plan).state_seq = ws.state_seq ∧
    (retryPending ws ch plan).alert_sent = ws.alert_sent ∧
    (retryPending ws ch plan).alerts_dispatched = ws.alerts_dispatched ∧
    (retryPending ws ch plan).degraded = ws.degraded ∧
    (retryPending ws ch plan).seqs = ws.seqs := by
  simp only [retryPending]
  exact retryLoop_preserves plan _ _

theorem flushChunks_preserves (plan : Nat → List Bool)
    (chunks : List (List MessageItem)) (ws : WorkerState) (ch : Nat) :
    (flushChunks ws ch chunks plan).archiver_state = ws.archiver_state ∧
    (flushChunks ws ch chunks plan).state_seq = ws.state_seq ∧
    (flushChunks ws ch chunks plan).alert_sent = ws.alert_sent ∧
    (flushChunks ws ch chunks plan).alerts_dispatched = ws.alerts_dispatched ∧
    (flushChunks ws ch chunks plan).degraded = ws.degraded := by
  induction chunks generalizing ws with
  | nil => simp [flushChunks]
  | cons c rest ih =>
      simp only [flushChunks]
      split
      · obtain ⟨h1, h2, h3, h4, h5⟩ :=
          ih (handleBatch { ws with seqs := bumpSeq ws.seqs ch }
            ⟨ch, lookupSeq ws.seqs ch, c⟩ (plan (lookupSeq ws.seqs ch)))
        obtain ⟨g1, g2, g3, g4, g5, _⟩ :=
          handleBatch_preserves { ws with seqs := bumpSeq ws.seqs ch }
            ⟨ch, lookupSeq ws.seqs ch, c⟩ (plan (lookupSeq ws.seqs ch))
        exact ⟨h1.trans g1, h2.trans g2, h3.trans g3, h4.trans g4, h5.trans g5⟩
      · obtain ⟨g1, g2, g3, g4, g5, _⟩ :=
          handleBatch_preserves { ws with seqs := bumpSeq ws.seqs ch }
            ⟨ch, lookupSeq ws.seqs ch, c⟩ (plan (lookupSeq ws.seqs ch))
        exact ⟨g1, g2, g3, g4, g5⟩

/-! ## Alert accounting -/

theorem processChannel_alert_inv (T : Nat) (ws : WorkerState) (ch : Nat)
    (inp : ChannelInput) (h : ws.alert_sent = true) :
    (processChannel T ws ch inp).alert_sent = true ∧
    (processChannel T ws ch inp).alerts_dispatched = ws.alerts_dispatched := by
  by_cases hs : ws.archiver_state = ArchiverState.SCRAPING
  · cases hc : CaptchaMonitor.inspect inp.snapshot with
    | ChallengeDetected =>
        rw [processChannel_challenge T ws ch inp hs hc,
          pauseCaptcha_of_sent ws h]
        exact ⟨h, rfl⟩
    | Clear =>
        by_cases hn : inp.nav_attempts.any (fun a => a) = true
        · rw [processChannel_normal T ws ch inp hs hc hn]
          split
          · obtain ⟨_, _, f3, f4, _⟩ :=
              flushChunks_preserves inp.flushPlan _
                (retryPending ws ch inp.flushPlan) ch
            obtain ⟨_, _, r3, r4, _, _⟩ :=
              retryPending_preserves ws ch inp.flushPlan
            exact ⟨f3.trans (r3.trans h), f4.trans r4⟩
          · obtain ⟨_, _, r3, r4, _, _⟩ :=
              retryPending_preserves ws ch inp.flushPlan
            exact ⟨r3.trans h, r4⟩
        · have hn' : inp.nav_attempts.any (fun a => a) = false := by
            simpa using hn
          rw [processChannel_nav_exhausted T ws ch inp hs hc hn']
          exact ⟨h, rfl⟩
  · rw [processChannel_not_scraping T ws ch inp hs]
    exact ⟨h, rfl⟩

theorem foldl_processChannel_alert_inv (T : Nat)
    (inputs : List (Nat × ChannelInput)) (ws : WorkerState)
    (h : ws.alert_sent = true) :
    (inputs.foldl (fun s p => processChannel T s p.1 p.2) ws).alert_sent =
      true ∧
    (inputs.foldl (fun s p => processChannel T s p.1 p.2)
        ws).alerts_dispatched = ws.alerts_dispatched := by
  induction inputs generalizing ws with
  | nil => exact ⟨h, rfl⟩
  | cons p rest ih =>
      obtain ⟨h1, h2⟩ := processChannel_alert_inv T ws p.1 p.2 h
      obtain ⟨g1, g2⟩ := ih (processChannel T ws p.1 p.2) h1
      exact ⟨g1, g2.trans h2⟩

theorem runCycle_alert_inv (T : Nat) (ws : WorkerState)
    (inputs : List (Nat × ChannelInput)) (h : ws.alert_sent = true) :
    (runCycle T ws inputs).alert_sent = true ∧
    (runCycle T ws inputs).alerts_dispatched = ws.alerts_dispatched := by
  unfold runCycle
  exact foldl_processChannel_alert_inv T inputs { ws with degraded := [] } h

/-! ## Control-plane signal lemmas -/

theorem applySignal_resolved_of_paused (ws : WorkerState)
    (h : ws.archiver_state = ArchiverState.PAUSED_CAPTCHA) :
    applySignal ws Signal.OnCaptchaResolved =
      { ws with
          archiver_state := ArchiverState.SCRAPING
          state_seq := ws.state_seq + 1
          alert_sent := false } := by
  unfold applySignal
  rw [if_pos h]

theorem applySignal_alert_sent_unless_resolved (ws : WorkerState)
    (s : Signal) (h : s ≠ Signal.OnCaptchaResolved) :
    (applySignal ws s).alert_sent = ws.alert_sent := by
  cases s with
  | OnLoginCompleted =>
      simp only [applySignal]
      split <;> rfl
  | OnCaptchaResolved => exact absurd rfl h
  | RequestShutdown => rfl

theorem applySignal_paused_stays_unless_resolved (ws : WorkerState)
    (s : Signal) (hp : ws.archiver_state = ArchiverState.PAUSED_CAPTCHA)
    (h : s ≠ Signal.OnCaptchaResolved) :
    (applySignal ws s).archiver_state ≠ ArchiverState.SCRAPING := by
  cases s with
  | OnLoginCompleted =>
      simp only [applySignal]
      rw [if_neg (by rw [hp]; exact fun hh => nomatch hh)]
      rw [hp]
      exact fun hh => nomatch hh
  | OnCaptchaResolved => exact absurd rfl h
  | RequestShutdown =>
      simp only [applySignal]
      exact fun hh => nomatch hh

/-! ## Batching lemmas -/

theorem chunkItemsFuel_irrel (T : Nat) :
    ∀ (fuel fuel' : Nat) (l : List MessageItem), l.length ≤ fuel →
      l.length ≤ fuel' → chunkItemsFuel T fuel l = chunkItemsFuel T fuel' l := by
  intro fuel
  induction fuel with
  | zero =>
      intro fuel' l h _
      cases l with
      | nil => cases fuel' <;> rfl
      | cons x xs => simp at h
  | succ n ih =>
      intro fuel' l h h'
      cases l with
      | nil => cases fuel' <;> rfl
      | cons x xs =>
          cases fuel' with
          | zero => simp at h'
          | succ m =>
              simp only [chunkItemsFuel]
              congr 1
              apply ih
              · simp only [List.length_drop]
                simp only [List.length_cons] at h
                omega
              · simp only [List.length_drop]
                simp only [List.length_cons] at h'
                omega

theorem chunkItems_induction (T : Nat) (motive : List MessageItem → Prop)
    (case1 : motive [])
    (case2 : ∀ x xs, motive (xs.drop (T - 1)) → motive (x :: xs))
    (l : List MessageItem) : motive l := by
  have H : ∀ n, ∀ l' : List MessageItem, l'.length ≤ n → motive l' := by
    intro n
    induction n with
    | zero =>
        intro l' h
        cases l' with
        | nil => exact case1
        | cons x xs => simp at h
    | succ n ih =>
        intro l' h
        cases l' with
        | nil => exact case1
        | cons x xs =>
            apply case2
            apply ih
            simp only [List.length_drop]
            simp only [List.length_cons] at h
            omega
  exact H l.length l (le_refl _)

theorem chunkItems_nil (T : Nat) : chunkItems T [] = [] := rfl

theorem chunkItems_cons (T : Nat) (x : MessageItem) (xs : List MessageItem) :
    chunkItems T (x :: xs) =
      (x :: xs.take (T - 1)) :: chunkItems T (xs.drop (T - 1)) := by
  unfold chunkItems
  simp only [List.length_cons, chunkItemsFuel]
  congr 1
  apply chunkItemsFuel_irrel
  · simp only [List.length_drop]
    omega
  · exact le_refl _

theorem chunkItems_eq_nil_iff (T : Nat) (l : List MessageItem) :
    chunkItems T l = [] ↔ l = [] := by
  cases l with
  | nil => simp [chunkItems_nil]
  | cons x xs => simp [chunkItems_cons]

theorem chunkItems_flatten (T : Nat) (l : List MessageItem) :
    (chunkItems T l).flatten = l := by
  induction l using chunkItems_induction T with
  | case1 => simp [chunkItems_nil]
  | case2 x xs ih =>
      rw [chunkItems_cons, List.flatten_cons, ih]
      simp [List.take_append_drop]

theorem chunkItems_length_le (T : Nat) (hT : 1 ≤ T) (l : List MessageItem) :
    ∀ c ∈ chunkItems T l, c.length ≤ T := by
  induction l using chunkItems_induction T with
  | case1 => simp [chunkItems_nil]
  | case2 x xs ih =>
      rw [chunkItems_cons]
      intro c hc
      rcases List.mem_cons.mp hc with h | h
      · subst h
        simp only [List.length_cons, List.length_take]
        omega
      · exact ih c h

theorem chunkItems_ne_nil (T : Nat) (l : List MessageItem) :
    ∀ c ∈ chunkItems T l, c ≠ [] := by
  induction l using chunkItems_induction T with
  | case1 => simp [chunkItems_nil]
  | case2 x xs ih =>
      rw [chunkItems_cons]
      intro c hc
      rcases List.mem_cons.mp hc with h | h
      · subst h
        exact List.cons_ne_nil _ _
      · exact ih c h

theorem chunkItems_dropLast_full (T : Nat) (hT : 1 ≤ T)
    (l : List MessageItem) :
    ∀ c ∈ (chunkItems T l).dropLast, c.length = T := by
  induction l using chunkItems_induction T with
  | case1 => simp [chunkItems_nil]
  | case2 x xs ih =>
      rw [chunkItems_cons]
      cases hrec : chunkItems T (xs.drop (T - 1)) with
      | nil => simp
      | cons c1 cs =>
          intro c hc
          rw [List.dropLast_cons_of_ne_nil (List.cons_ne_nil c1 cs)] at hc
          rcases List.mem_cons.mp hc with h | h
          · subst h
            have hne : xs.drop (T - 1) ≠ [] := by
              intro hnil
              rw [hnil, chunkItems_nil] at hrec
              exact List.cons_ne_nil c1 cs hrec.symm
            have hlen : T - 1 < xs.length := by
              by_contra hcon
              exact hne (List.drop_eq_nil_of_le (by omega))
            simp only [List.length_cons, List.length_take]
            omega
          · have := ih
            rw [hrec] at this
            exact this c h

theorem chunkItems_sorted (T : Nat) (l : List MessageItem)
    (hl : List.Sorted itemLE l) :
    ∀ c ∈ chunkItems T l, List.Sorted itemLE c := by
  induction l using chunkItems_induction T with
  | case1 => simp [chunkItems_nil]
  | case2 x xs ih =>
      rw [chunkItems_cons]
      intro c hc
      rcases List.mem_cons.mp hc with h | h
      · subst h
        have hsub : (x :: xs.take (T - 1)).Sublist (x :: xs) :=
          List.Sublist.cons₂ x (List.take_sublist (T - 1) xs)
        exact List.Pairwise.sublist hsub hl
      · exact ih
          (List.Pairwise.sublist
            ((List.drop_sublist (T - 1) xs).trans
              (List.sublist_cons_self x xs)) hl)
          c h

/-! ## Batch-size invariant -/

theorem storagePut_bounded (T : Nat) (st : Storage) (k : StorageKey)
    (p : List MessageItem) (hst : ∀ e ∈ st, e.2.length ≤ T)
    (hp : p.length ≤ T) :
    ∀ e ∈ storagePut st k p, e.2.length ≤ T := by
  unfold storagePut
  split
  · exact hst
  · intro e he
    rcases List.mem_cons.mp he with h | h
    · subst h
      exact hp
    · exact hst e h

theorem handleBatch_bounded (T : Nat) (ws : WorkerState) (b : Batch)
    (attempts : List Bool) (hb : b.items.length ≤ T)
    (hws : batchesBounded T ws) :
    batchesBounded T (handleBatch ws b attempts) := by
  obtain ⟨hpend, hst⟩ := hws
  by_cases h : attempts.any (fun a => a) = true
  · rw [handleBatch_ack ws b attempts h]
    exact ⟨hpend, storagePut_bounded T ws.storage (idempotencyKey b)
      (serializeBatch b) hst hb⟩
  · have h' : attempts.any (fun a => a) = false := by simpa using h
    rw [handleBatch_failed ws b attempts h']
    refine ⟨?_, hst⟩
    intro b' hb'
    rcases List.mem_append.mp hb' with hh | hh
    · exact hpend b' hh
    · rw [List.mem_singleton.mp hh]
      exact hb

theorem retryLoop_bounded (T : Nat) (plan : Nat → List Bool)
    (batches : List Batch) (ws : WorkerState)
    (hbs : ∀ b ∈ batches, b.items.length ≤ T)
    (hws : batchesBounded T ws) :
    batchesBounded T (retryLoop ws batches plan) := by
  induction batches generalizing ws with
  | nil => simpa [retryLoop] using hws
  | cons b rest ih =>
      simp only [retryLoop]
      have hb : b.items.length ≤ T := hbs b (List.mem_cons_self b rest)
      have hrest : ∀ b' ∈ rest, b'.items.length ≤ T :=
        fun b' hb' => hbs b' (List.mem_cons_of_mem b hb')
      have hws' := handleBatch_bounded T ws b (plan b.batch_seq) hb hws
      split
      · exact ih _ hrest hws'
      · obtain ⟨hpend, hst⟩ := hws'
        refine ⟨?_, hst⟩
        intro b' hb'
        rcases List.mem_append.mp hb' with hh | hh
        · exact hpend b' hh
        · exact hrest b' hh

theorem retryPending_bounded (T : Nat) (ws : WorkerState) (ch : Nat)
    (plan : Nat → List Bool) (hws : batchesBounded T ws) :
    batchesBounded T (retryPending ws ch plan) := by
  obtain ⟨hpend, hst⟩ := hws
  simp only [retryPending]
  refine retryLoop_bounded T plan _ _ ?_ ⟨?_, hst⟩
  · intro b hb
    exact hpend b (List.mem_of_mem_filter hb)
  · intro b hb
    exact hpend b (List.mem_of_mem_filter hb)

theorem flushChunks_bounded (T : Nat) (plan : Nat → List Bool)
    (chunks : List (List MessageItem)) (ws : WorkerState) (ch : Nat)
    (hcs : ∀ c ∈ chunks, c.length ≤ T) (hws : batchesBounded T ws) :
    batchesBounded T (flushChunks ws ch chunks plan) := by
  induction chunks generalizing ws with
  | nil => simpa [flushChunks] using hws
  | cons c rest ih =>
      simp only [flushChunks]
      have hc : c.length ≤ T := hcs c (List.mem_cons_self c rest)
      have hrest : ∀ c' ∈ rest, c'.length ≤ T :=
        fun c' hc' => hcs c' (List.mem_cons_of_mem c hc')
      have hws0 : batchesBounded T { ws with seqs := bumpSeq ws.seqs ch } := hws
      have hws' := handleBatch_bounded T { ws with seqs := bumpSeq ws.seqs ch }
        ⟨ch, lookupSeq ws.seqs ch, c⟩ (plan (lookupSeq ws.seqs ch)) hc hws0
      split
      · exact ih _ hrest hws'
      · exact hws'

theorem processChannel_bounded (T : Nat) (ws : WorkerState) (ch : Nat)
    (inp : ChannelInput) (hT : 1 ≤ T) (hws : batchesBounded T ws) :
    batchesBounded T (processChannel T ws ch inp) := by
  by_cases hs : ws.archiver_state = ArchiverState.SCRAPING
  · cases hc : CaptchaMonitor.inspect inp.snapshot with
    | ChallengeDetected =>
        rw [processChannel_challenge T ws ch inp hs hc]
        obtain ⟨hpend, hst⟩ := hws
        constructor
        · rw [pauseCaptcha_pending]
          exact hpend
        · rw [pauseCaptcha_storage]
          exact hst
    | Clear =>
        by_cases hn : inp.nav_attempts.any (fun a => a) = true
        · rw [processChannel_normal T ws ch inp hs hc hn]
          have h1 := retryPending_bounded T ws ch inp.flushPlan hws
          split
          · exact flushChunks_bounded T inp.flushPlan _ _ ch
              (chunkItems_length_le T hT _) h1
          · exact h1
        · have hn' : inp.nav_attempts.any (fun a => a) = false := by
            simpa using hn
          rw [processChannel_nav_exhausted T ws ch inp hs hc hn']
          exact hws
  · rw [processChannel_not_scraping T ws ch inp hs]
    exact hws

theorem foldl_processChannel_bounded (T : Nat)
    (inputs : List (Nat × ChannelInput)) (ws : WorkerState) (hT : 1 ≤ T)
    (hws : batchesBounded T ws) :
    batchesBounded T
      (inputs.foldl (fun s p => processChannel T s p.1 p.2) ws) := by
  induction inputs generalizing ws with
  | nil => exact hws
  | cons p rest ih =>
      exact ih (processChannel T ws p.1 p.2)
        (processChannel_bounded T ws p.1 p.2 hT hws)

theorem runCycle_bounded (T : Nat) (ws : WorkerState)
    (inputs : List (Nat × ChannelInput)) (hT : 1 ≤ T)
    (hws : batchesBounded T ws) :
    batchesBounded T (runCycle T ws inputs) := by
  unfold runCycle
  exact foldl_processChannel_bounded T inputs { ws with degraded := [] } hT hws

/-! ## Retrying a single retained batch -/

theorem retryPending_single_ack (ws : WorkerState) (b : Batch) (ch : Nat)
    (plan : Nat → List Bool) (hpend : ws.pending = [b])
    (hch : b.channel_id = ch)
    (hplan : (plan b.batch_seq).any (fun a => a) = true) :
    retryPending ws ch plan =
      { ws with
          pending := []
          storage := storagePut ws.storage (idempotencyKey b) (serializeBatch b)
          cursors := advanceCursor ws.cursors b.channel_id (maxItemId b.items) } := by
  have hmine : ws.pending.filter (fun b' => b'.channel_id == ch) = [b] := by
    simp [hpend, hch]
  have hothers :
      ws.pending.filter (fun b' => ¬ (b'.channel_id == ch)) = [] := by
    simp [hpend, hch]
  simp only [retryPending, hmine, hothers, retryLoop]
  rw [flush_of_any _ b _ hplan, handleBatch_ack _ b _ hplan]

theorem retryPending_single_failed (ws : WorkerState) (b : Batch) (ch : Nat)
    (plan : Nat → List Bool) (hpend : ws.pending = [b])
    (hch : b.channel_id = ch)
    (hplan : (plan b.batch_seq).any (fun a => a) = false) :
    retryPending ws ch plan = ws := by
  have hmine : ws.pending.filter (fun b' => b'.channel_id == ch) = [b] := by
    simp [hpend, hch]
  have hothers :
      ws.pending.filter (fun b' => ¬ (b'.channel_id == ch)) = [] := by
    simp [hpend, hch]
  simp only [retryPending, hmine, hothers, retryLoop]
  rw [flush_of_not_any _ b _ hplan, handleBatch_failed _ b _ hplan]
  simp only [List.nil_append, List.append_nil]
  rw [← hpend]

/-! ## Fetch-order lemmas -/

theorem readItemsSince_sorted (avail : List MessageItem) (cursor : Nat) :
    List.Sorted itemLE (readItemsSince avail cursor) :=
  List.sorted_insertionSort itemLE _

theorem readItemsSince_gt_cursor (avail : List MessageItem) (cursor : Nat) :
    ∀ m ∈ readItemsSince avail cursor, cursor < m.item_id := by
  intro m hm
  unfold readItemsSince at hm
  have hperm := List.perm_insertionSort itemLE
    (avail.filter (fun m => cursor < m.item_id))
  have hm' : m ∈ avail.filter (fun m => cursor < m.item_id) :=
    hperm.mem_iff.mp hm
  simpa using (List.mem_filter.mp hm').2

/-! ## HomeScreen merge lemmas -/

theorem filteredIds_nodup (xs prev : List Product)
    (hxs : (xs.map Product.id).Nodup) :
    ((xs.filter
        (fun p => ¬ ((prev.map Product.id).contains p.id))).map
      Product.id).Nodup :=
  List.Nodup.sublist ((List.filter_sublist xs).map Product.id) hxs

theorem filteredIds_disjoint (xs prev : List Product) :
    ∀ a ∈ (xs.filter
        (fun p => ¬ ((prev.map Product.id).contains p.id))).map Product.id,
      a ∉ prev.map Product.id := by
  intro a ha
  obtain ⟨p, hp, rfl⟩ := List.mem_map.mp ha
  have h := (List.mem_filter.mp hp).2
  simpa using h

theorem combined_ids_nodup (prev xs : List Product)
    (hprev : (prev.map Product.id).Nodup)
    (hxs : (xs.map Product.id).Nodup) :
    (((xs.filter
        (fun p => ¬ ((prev.map Product.id).contains p.id))) ++ prev).map
      Product.id).Nodup := by
  rw [List.map_append]
  exact List.nodup_append.mpr
    ⟨filteredIds_nodup xs prev hxs, hprev, filteredIds_disjoint xs prev⟩

/-! ## Claim theorems -/

/-- C1: a channel's cursor advances if and only if `UploadPipeline.flush`
returned `Ack` for the batch covering the items up to the new cursor
value. `flush` itself never mutates the cursor table; a `Failed` flush
leaves the cursors unchanged; and after an `Ack` the new watermark is
exactly the acknowledged batch's coverage (its maximal item id joined
with the previous watermark), with the batch durably stored under its
idempotency key. -/
theorem c1_cursor_advances_iff_ack (ws : WorkerState) (b : Batch)
    (attempts : List Bool) :
    ((UploadPipeline.flush ws b attempts).2).cursors = ws.cursors ∧
    ((handleBatch ws b attempts).cursors ≠ ws.cursors →
      (UploadPipeline.flush ws b attempts).1 = FlushResult.Ack) ∧
    ((UploadPipeline.flush ws b attempts).1 = FlushResult.Ack →
      lookupCursor (handleBatch ws b attempts).cursors b.channel_id =
        max (lookupCursor ws.cursors b.channel_id) (maxItemId b.items) ∧
      storageContains (handleBatch ws b attempts).storage
        (idempotencyKey b) = true) ∧
    ((UploadPipeline.flush ws b attempts).1 = FlushResult.Failed →
      (handleBatch ws b attempts).cursors = ws.cursors) := by
  refine ⟨flush_cursors ws b attempts, ?_, ?_, ?_⟩
  · intro hne
    by_cases h : attempts.any (fun a => a) = true
    · exact (flush_fst_eq_ack_iff ws b attempts).mpr h
    · have h' : attempts.any (fun a => a) = false := by simpa using h
      exact absurd (by rw [handleBatch_failed ws b attempts h']) hne
  · intro hack
    have h := (flush_fst_eq_ack_iff ws b attempts).mp hack
    rw [handleBatch_ack ws b attempts h]
    exact ⟨lookupCursor_advanceCursor_self ws.cursors b.channel_id
      (maxItemId b.items),
      storageContains_storagePut_self ws.storage (idempotencyKey b)
        (serializeBatch b)⟩
  · intro hfail
    have h := (flush_fst_eq_failed_iff ws b attempts).mp hfail
    rw [handleBatch_failed ws b attempts h]

/-- C1 witness: the characterization evaluated on a concrete worker and
batch, with a successful storage attempt — the cursor lands exactly on
the acknowledged batch's maximal item id and the batch is stored. -/
theorem c1_cursor_advances_iff_ack_witness :
    lookupCursor (handleBatch ws0 batch1 [true]).cursors
        batch1.channel_id =
      max (lookupCursor ws0.cursors batch1.channel_id)
        (maxItemId batch1.items) ∧
    storageContains (handleBatch ws0 batch1 [true]).storage
      (idempotencyKey batch1) = true :=
  (c1_cursor_advances_iff_ack ws0 batch1 [true]).2.2.1 (by decide)

/-- C3: the idempotency key is a deterministic function of
`{channel_id, batch_seq}` alone; every storage write `flush` performs is
under exactly that key; writing again under an existing key is a no-op;
and re-flushing a batch whose key is already stored leaves the whole
worker state (in particular the storage) unchanged. -/
theorem c3_idempotency_key (b b' : Batch) (ws : WorkerState)
    (attempts : List Bool) (st : Storage) (k : StorageKey)
    (p q : List MessageItem) :
    idempotencyKey b = (b.channel_id, b.batch_seq) ∧
    (b.channel_id = b'.channel_id → b.batch_seq = b'.batch_seq →
      idempotencyKey b = idempotencyKey b') ∧
    ((UploadPipeline.flush ws b attempts).2.storage = ws.storage ∨
      (UploadPipeline.flush ws b attempts).2.storage =
        storagePut ws.storage (idempotencyKey b) (serializeBatch b)) ∧
    storagePut (storagePut st k p) k q = storagePut st k p ∧
    (storageContains ws.storage (idempotencyKey b) = true →
      (UploadPipeline.flush ws b attempts).2 = ws) := by
  refine ⟨rfl, ?_, ?_, storagePut_idem st k p q, ?_⟩
  · intro h1 h2
    unfold idempotencyKey
    rw [h1, h2]
  · by_cases h : attempts.any (fun a => a) = true
    · right
      rw [flush_of_any ws b attempts h]
    · left
      have h' : attempts.any (fun a => a) = false := by simpa using h
      rw [flush_of_not_any ws b attempts h']
  · intro hc
    by_cases h : attempts.any (fun a => a) = true
    · rw [flush_of_any ws b attempts h,
        storagePut_of_contains ws.storage (idempotencyKey b)
          (serializeBatch b) hc]
    · have h' : attempts.any (fun a => a) = false := by simpa using h
      rw [flush_of_not_any ws b attempts h']

/-- C3 witness: on a concrete worker whose storage already holds
`batch1`'s key, re-flushing is a storage-level no-op. -/
theorem c3_idempotency_key_witness :
    (UploadPipeline.flush
        { ws0 with
            storage := storagePut ws0.storage (idempotencyKey batch1)
              (serializeBatch batch1) }
        batch1 [true]).2 =
      { ws0 with
          storage := storagePut ws0.storage (idempotencyKey batch1)
            (serializeBatch batch1) } :=
  (c3_idempotency_key batch1 batch1
      { ws0 with
          storage := storagePut ws0.storage (idempotencyKey batch1)
            (serializeBatch batch1) }
      [true] [] (0, 0) [] []).2.2.2.2 (by decide)

/-- C2: a challenge detected during any channel's turn moves the single
global state to `PAUSED_CAPTCHA` and suspends the whole cycle: the
channels after the detection are not processed, the worker remains
inert across any further cycles while paused, only the control plane's
`OnCaptchaResolved` signal returns it to `SCRAPING`, and no other event
(in particular nothing `CaptchaMonitor` does) resumes scraping. -/
theorem c2_challenge_pauses_all_channels (T : Nat) (ws : WorkerState)
    (pre post : List (Nat × ChannelInput)) (ch : Nat) (inp : ChannelInput)
    (hs : (pre.foldl (fun s p => processChannel T s p.1 p.2)
            { ws with degraded := [] }).archiver_state =
          ArchiverState.SCRAPING)
    (hc : CaptchaMonitor.inspect inp.snapshot =
      CaptchaVerdict.ChallengeDetected) :
    runCycle T ws (pre ++ (ch, inp) :: post) =
      pauseCaptcha
        (pre.foldl (fun s p => processChannel T s p.1 p.2)
          { ws with degraded := [] }) ∧
    (runCycle T ws (pre ++ (ch, inp) :: post)).archiver_state =
      ArchiverState.PAUSED_CAPTCHA ∧
    (runCycle T ws (pre ++ (ch, inp) :: post)).cursors =
      (pre.foldl (fun s p => processChannel T s p.1 p.2)
        { ws with degraded := [] }).cursors ∧
    (∀ inputs2 : List (Nat × ChannelInput),
      (runCycle T (runCycle T ws (pre ++ (ch, inp) :: post))
          inputs2).archiver_state = ArchiverState.PAUSED_CAPTCHA) ∧
    (applySignal (runCycle T ws (pre ++ (ch, inp) :: post))
        Signal.OnCaptchaResolved).archiver_state =
      ArchiverState.SCRAPING ∧
    (∀ s : Signal, s ≠ Signal.OnCaptchaResolved →
      (applySignal (runCycle T ws (pre ++ (ch, inp) :: post))
          s).archiver_state ≠ ArchiverState.SCRAPING) := by
  have hmain : runCycle T ws (pre ++ (ch, inp) :: post) =
      pauseCaptcha
        (pre.foldl (fun s p => processChannel T s p.1 p.2)
          { ws with degraded := [] }) := by
    unfold runCycle
    rw [List.foldl_append, List.foldl_cons]
    rw [processChannel_challenge T _ ch inp hs hc]
    exact foldl_processChannel_paused T post _
      (pauseCaptcha_archiver_state _)
  have hpstate := pauseCaptcha_archiver_state
    (pre.foldl (fun s p => processChannel T s p.1 p.2)
      { ws with degraded := [] })
  refine ⟨hmain, ?_, ?_, ?_, ?_, ?_⟩
  · rw [hmain]
    exact hpstate
  · rw [hmain]
    exact pauseCaptcha_cursors _
  · intro inputs2
    rw [hmain, runCycle_paused T _ inputs2 hpstate]
    exact hpstate
  · rw [hmain, applySignal_resolved_of_paused _ hpstate]
  · intro s hsig
    rw [hmain]
    exact applySignal_paused_stays_unless_resolved _ s hpstate hsig

/-- C2 witness: with one channel before and one after the challenged
channel, the cycle from the fresh worker halts at the challenge — the
post channel (which would otherwise archive two items) is untouched,
and only the resolve signal resumes scraping. -/
theorem c2_challenge_pauses_all_channels_witness :
    runCycle 10 ws0 ([(2, inpClear)] ++ (1, inpChallenge) :: [(3, inpClear)]) =
      pauseCaptcha
        ([(2, inpClear)].foldl (fun s p => processChannel 10 s p.1 p.2)
          { ws0 with degraded := [] }) ∧
    (runCycle 10 ws0
        ([(2, inpClear)] ++ (1, inpChallenge) :: [(3, inpClear)])).archiver_state =
      ArchiverState.PAUSED_CAPTCHA ∧
    (runCycle 10 ws0
        ([(2, inpClear)] ++ (1, inpChallenge) :: [(3, inpClear)])).cursors =
      ([(2, inpClear)].foldl (fun s p => processChannel 10 s p.1 p.2)
        { ws0 with degraded := [] }).cursors ∧
    (∀ inputs2 : List (Nat × ChannelInput),
      (runCycle 10
          (runCycle 10 ws0
            ([(2, inpClear)] ++ (1, inpChallenge) :: [(3, inpClear)]))
          inputs2).archiver_state = ArchiverState.PAUSED_CAPTCHA) ∧
    (applySignal
        (runCycle 10 ws0
          ([(2, inpClear)] ++ (1, inpChallenge) :: [(3, inpClear)]))
        Signal.OnCaptchaResolved).archiver_state = ArchiverState.SCRAPING ∧
    (∀ s : Signal, s ≠ Signal.OnCaptchaResolved →
      (applySignal
          (runCycle 10 ws0
            ([(2, inpClear)] ++ (1, inpChallenge) :: [(3, inpClear)]))
          s).archiver_state ≠ ArchiverState.SCRAPING) :=
  c2_challenge_pauses_all_channels 10 ws0 [(2, inpClear)] [(3, inpClear)]
    1 inpChallenge (by decide) (by decide)

/-- C4: exactly one alert per captcha-pause episode. Entering the pause
with a clear flag dispatches exactly one alert and sets the flag; a
challenge handled while the flag is set dispatches none; whole scrape
cycles run while the flag is set dispatch none and never clear the flag;
the flag is cleared exactly by the control plane's resolution transition
back to `SCRAPING`, and by no other signal. -/
theorem c4_one_alert_per_pause_episode (T : Nat) (ws : WorkerState)
    (inputs : List (Nat × ChannelInput)) (s : Signal) :
    (ws.alert_sent = false →
      (pauseCaptcha ws).alerts_dispatched = ws.alerts_dispatched + 1 ∧
      (pauseCaptcha ws).alert_sent = true) ∧
    (ws.alert_sent = true →
      (pauseCaptcha ws).alerts_dispatched = ws.alerts_dispatched) ∧
    (ws.alert_sent = true →
      (runCycle T ws inputs).alerts_dispatched = ws.alerts_dispatched ∧
      (runCycle T ws inputs).alert_sent = true) ∧
    (ws.archiver_state = ArchiverState.PAUSED_CAPTCHA →
      applySignal ws Signal.OnCaptchaResolved =
        { ws with
            archiver_state := ArchiverState.SCRAPING
            state_seq := ws.state_seq + 1
            alert_sent := false }) ∧
    (s ≠ Signal.OnCaptchaResolved →
      (applySignal ws s).alert_sent = ws.alert_sent) := by
  refine ⟨?_, ?_, ?_, applySignal_resolved_of_paused ws,
    applySignal_alert_sent_unless_resolved ws s⟩
  · intro h
    rw [pauseCaptcha_of_not_sent ws h]
    exact ⟨rfl, rfl⟩
  · intro h
    rw [pauseCaptcha_of_sent ws h]
  · intro h
    exact ⟨(runCycle_alert_inv T ws inputs h).2,
      (runCycle_alert_inv T ws inputs h).1⟩

/-- C4 witness: entering the pause from the fresh worker dispatches the
single alert; a full cycle run on the already-paused worker dispatches
nothing more; resolving clears the flag. -/
theorem c4_one_alert_per_pause_episode_witness :
    ((ws0.alert_sent = false →
      (pauseCaptcha ws0).alerts_dispatched = ws0.alerts_dispatched + 1 ∧
      (pauseCaptcha ws0).alert_sent = true) ∧
    (ws0.alert_sent = true →
      (pauseCaptcha ws0).alerts_dispatched = ws0.alerts_dispatched) ∧
    (ws0.alert_sent = true →
      (runCycle 10 ws0 [(1, inpChallenge)]).alerts_dispatched =
        ws0.alerts_dispatched ∧
      (runCycle 10 ws0 [(1, inpChallenge)]).alert_sent = true) ∧
    (ws0.archiver_state = ArchiverState.PAUSED_CAPTCHA →
      applySignal ws0 Signal.OnCaptchaResolved =
        { ws0 with
            archiver_state := ArchiverState.SCRAPING
            state_seq := ws0.state_seq + 1
            alert_sent := false }) ∧
    (Signal.RequestShutdown ≠ Signal.OnCaptchaResolved →
      (applySignal ws0 Signal.RequestShutdown).alert_sent =
        ws0.alert_sent)) ∧
    (wsPaused.alert_sent = true →
      (runCycle 10 wsPaused [(1, inpChallenge)]).alerts_dispatched =
        wsPaused.alerts_dispatched ∧
      (runCycle 10 wsPaused [(1, inpChallenge)]).alert_sent = true) ∧
    (wsPaused.archiver_state = ArchiverState.PAUSED_CAPTCHA →
      applySignal wsPaused Signal.OnCaptchaResolved =
        { wsPaused with
            archiver_state := ArchiverState.SCRAPING
            state_seq := wsPaused.state_seq + 1
            alert_sent := false }) :=
  ⟨c4_one_alert_per_pause_episode 10 ws0 [(1, inpChallenge)]
      Signal.RequestShutdown,
    (c4_one_alert_per_pause_episode 10 wsPaused [(1, inpChallenge)]
      Signal.RequestShutdown).2.2.1,
    (c4_one_alert_per_pause_episode 10 wsPaused [(1, inpChallenge)]
      Signal.RequestShutdown).2.2.2.1⟩

/-- C5: `SessionStore.load` returns `NotFound` both when the persisted
blob is absent and when it is unparseable; its outcome is always one of
`Found`/`NotFound` (corruption never escapes as an exception), and the
worker's startup transition maps `NotFound` to `AWAITING_LOGIN` — never
a crash. -/
theorem c5_corrupt_session_means_login (parse : String → Option Session)
    (blob : Option String) (raw : String) (valid : Session → Bool)
    (hraw : parse raw = none) :
    SessionStore.load parse none = LoadResult.NotFound ∧
    SessionStore.load parse (some raw) = LoadResult.NotFound ∧
    (SessionStore.load parse blob = LoadResult.NotFound ∨
      ∃ s, SessionStore.load parse blob = LoadResult.Found s) ∧
    startupTransition LoadResult.NotFound valid =
      ArchiverState.AWAITING_LOGIN := by
  refine ⟨rfl, ?_, ?_, rfl⟩
  · simp only [SessionStore.load]
    rw [hraw]
  · cases blob with
    | none => exact Or.inl rfl
    | some raw2 =>
        cases hp : parse raw2 with
        | none =>
            left
            simp only [SessionStore.load]
            rw [hp]
        | some s =>
            right
            refine ⟨s, ?_⟩
            simp only [SessionStore.load]
            rw [hp]

/-- C5 witness: a decoder that rejects every blob together with a
concrete corrupt blob — load yields `NotFound` and startup lands in
`AWAITING_LOGIN`. -/
theorem c5_corrupt_session_means_login_witness :
    SessionStore.load parseNone none = LoadResult.NotFound ∧
    SessionStore.load parseNone (some "corrupt") = LoadResult.NotFound ∧
    (SessionStore.load parseNone (some "corrupt") = LoadResult.NotFound ∨
      ∃ s, SessionStore.load parseNone (some "corrupt") =
        LoadResult.Found s) ∧
    startupTransition LoadResult.NotFound validAlways =
      ArchiverState.AWAITING_LOGIN :=
  c5_corrupt_session_means_login parseNone (some "corrupt") "corrupt"
    validAlways rfl

/-- C6: batches respect the size threshold and are cut exactly at it:
chunking a channel's fetched items yields only nonempty chunks of at
most `T` items, every chunk except the final partial one is exactly
full (flushed the moment the threshold is reached), the chunks together
carry exactly the fetched items — the final partial chunk being the
end-of-cycle flush, so nothing is carried across channels — and a whole
scrape cycle keeps every batch held in memory or in storage within the
bound. -/
theorem c6_batch_size_threshold (T : Nat) (l : List MessageItem)
    (ws : WorkerState) (inputs : List (Nat × ChannelInput)) (hT : 1 ≤ T)
    (hws : batchesBounded T ws) :
    (∀ c ∈ chunkItems T l, c.length ≤ T ∧ c ≠ []) ∧
    (∀ c ∈ (chunkItems T l).dropLast, c.length = T) ∧
    (chunkItems T l).flatten = l ∧
    batchesBounded T (runCycle T ws inputs) := by
  refine ⟨?_, chunkItems_dropLast_full T hT l, chunkItems_flatten T l,
    runCycle_bounded T ws inputs hT hws⟩
  intro c hc
  exact ⟨chunkItems_length_le T hT l c hc, chunkItems_ne_nil T l c hc⟩

/-- C6 witness: three items against threshold 2 — one full chunk of two,
then the partial end-of-cycle chunk of one; and a concrete cycle keeps
the bound. -/
theorem c6_batch_size_threshold_witness :
    (∀ c ∈ chunkItems 2 [itemA, itemB, itemC], c.length ≤ 2 ∧ c ≠ []) ∧
    (∀ c ∈ (chunkItems 2 [itemA, itemB, itemC]).dropLast, c.length = 2) ∧
    (chunkItems 2 [itemA, itemB, itemC]).flatten = [itemA, itemB, itemC] ∧
    batchesBounded 2 (runCycle 2 ws0 [(1, inpClear)]) :=
  c6_batch_size_threshold 2 [itemA, itemB, itemC] ws0 [(1, inpClear)]
    (by decide) (by decide)

/-- C7: when `flush` exhausts its retry budget and returns `Failed`, the
batch is retained in memory and neither the cursors nor the storage
change — state unchanged on error, no silent loss; the retained batch is
retried on the channel's next scrape cycle: a successful retry stores it
under its key, advances the cursor and drops it from memory, while
another exhausted retry leaves the worker exactly as it was. -/
theorem c7_failed_flush_retains_batch (ws : WorkerState) (b : Batch)
    (ch : Nat) (attempts : List Bool) (plan : Nat → List Bool)
    (hfail : attempts.any (fun a => a) = false)
    (hpend : ws.pending = [b]) (hch : b.channel_id = ch) :
    handleBatch ws b attempts = { ws with pending := ws.pending ++ [b] } ∧
    (handleBatch ws b attempts).cursors = ws.cursors ∧
    (handleBatch ws b attempts).storage = ws.storage ∧
    ((plan b.batch_seq).any (fun a => a) = false →
      retryPending ws ch plan = ws) ∧
    ((plan b.batch_seq).any (fun a => a) = true →
      retryPending ws ch plan =
        { ws with
            pending := []
            storage := storagePut ws.storage (idempotencyKey b)
              (serializeBatch b)
            cursors := advanceCursor ws.cursors b.channel_id
              (maxItemId b.items) }) := by
  refine ⟨handleBatch_failed ws b attempts hfail, ?_, ?_, ?_, ?_⟩
  · rw [handleBatch_failed ws b attempts hfail]
  · rw [handleBatch_failed ws b attempts hfail]
  · intro hp
    exact retryPending_single_failed ws b ch plan hpend hch hp
  · intro hp
    exact retryPending_single_ack ws b ch plan hpend hch hp

/-- C7 witness: `batch1` retained after three failed attempts, then
successfully retried on the next cycle — removed from memory, stored
under its key, cursor advanced. -/
theorem c7_failed_flush_retains_batch_witness :
    handleBatch wsPending batch1 [false, false, false] =
      { wsPending with pending := wsPending.pending ++ [batch1] } ∧
    retryPending wsPending 1 (fun _ => [true]) =
      { wsPending with
          pending := []
          storage := storagePut wsPending.storage (idempotencyKey batch1)
            (serializeBatch batch1)
          cursors := advanceCursor wsPending.cursors batch1.channel_id
            (maxItemId batch1.items) } :=
  ⟨(c7_failed_flush_retains_batch wsPending batch1 1 [false, false, false]
      (fun _ => [true]) (by decide) (by decide) (by decide)).1,
    (c7_failed_flush_retains_batch wsPending batch1 1 [false, false, false]
      (fun _ => [true]) (by decide) (by decide) (by decide)).2.2.2.2
      (by decide)⟩

/-- C8: a channel whose navigation/read retry budget is exhausted is
marked `DEGRADED` and skipped — only the degraded-mark set changes, the
worker stays `SCRAPING` (it does not stop), the cursors and retained
batches are untouched, so every later channel of the cycle is processed
normally; and the marks do not outlive the cycle: a cycle's outcome is
independent of any marks carried in. -/
theorem c8_degraded_channel_contained (T : Nat) (ws ws2 : WorkerState)
    (ch : Nat) (inp : ChannelInput) (d : List Nat)
    (inputs : List (Nat × ChannelInput))
    (hs : ws.archiver_state = ArchiverState.SCRAPING)
    (hm : inp.snapshot.challenge_marker = false)
    (hn : inp.nav_attempts.any (fun a => a) = false) :
    processChannel T ws ch inp = markDegraded ws ch ∧
    ch ∈ (processChannel T ws ch inp).degraded ∧
    (processChannel T ws ch inp).archiver_state = ArchiverState.SCRAPING ∧
    (processChannel T ws ch inp).archiver_state ≠ ArchiverState.STOPPING ∧
    (processChannel T ws ch inp).cursors = ws.cursors ∧
    (processChannel T ws ch inp).pending = ws.pending ∧
    runCycle T { ws2 with degraded := d } inputs = runCycle T ws2 inputs := by
  have hc : CaptchaMonitor.inspect inp.snapshot = CaptchaVerdict.Clear := by
    simp [CaptchaMonitor.inspect, hm]
  have hmain := processChannel_nav_exhausted T ws ch inp hs hc hn
  refine ⟨hmain, ?_, ?_, ?_, ?_, ?_, ?_⟩
  · rw [hmain]
    simp [markDegraded]
  · rw [hmain]
    exact hs
  · rw [hmain]
    have : (markDegraded ws ch).archiver_state = ws.archiver_state := rfl
    rw [this, hs]
    exact fun hh => nomatch hh
  · rw [hmain]
    rfl
  · rw [hmain]
    rfl
  · unfold runCycle
    rfl

/-- C8 witness: the failing channel 1 is marked degraded on the fresh
worker while the state stays `SCRAPING`, and a cycle's result ignores
stale degraded marks. -/
theorem c8_degraded_channel_contained_witness :
    processChannel 10 ws0 1 inpNavFail = markDegraded ws0 1 ∧
    1 ∈ (processChannel 10 ws0 1 inpNavFail).degraded ∧
    (processChannel 10 ws0 1 inpNavFail).archiver_state =
      ArchiverState.SCRAPING ∧
    (processChannel 10 ws0 1 inpNavFail).archiver_state ≠
      ArchiverState.STOPPING ∧
    (processChannel 10 ws0 1 inpNavFail).cursors = ws0.cursors ∧
    (processChannel 10 ws0 1 inpNavFail).pending = ws0.pending ∧
    runCycle 10 { ws0 with degraded := [5] } [(2, inpClear)] =
      runCycle 10 ws0 [(2, inpClear)] :=
  c8_degraded_channel_contained 10 ws0 ws0 1 inpNavFail [5] [(2, inpClear)]
    (by decide) (by decide) (by decide)

/-- C9: per-channel cursors are non-decreasing across a whole scrape
cycle (hence, chaining cycles, across the execution) and survive a
process restart unchanged (the table is durable); and a channel's items
are fetched and batched oldest-first: the fetched list is sorted by item
id and lies strictly above the cursor, and batching preserves the order
inside every batch as well as the overall sequence. -/
theorem c9_cursor_monotone_ordered (T : Nat) (ws : WorkerState)
    (inputs : List (Nat × ChannelInput)) (ch cur : Nat)
    (avail : List MessageItem) :
    lookupCursor ws.cursors ch ≤
      lookupCursor (runCycle T ws inputs).cursors ch ∧
    lookupCursor (restart ws).cursors ch = lookupCursor ws.cursors ch ∧
    List.Sorted itemLE (readItemsSince avail cur) ∧
    (∀ m ∈ readItemsSince avail cur, cur < m.item_id) ∧
    (∀ c ∈ chunkItems T (readItemsSince avail cur),
      List.Sorted itemLE c) ∧
    (chunkItems T (readItemsSince avail cur)).flatten =
      readItemsSince avail cur :=
  ⟨runCycle_cursor_le T ws inputs ch, rfl,
    readItemsSince_sorted avail cur, readItemsSince_gt_cursor avail cur,
    chunkItems_sorted T _ (readItemsSince_sorted avail cur),
    chunkItems_flatten T _⟩

/-- C9 witness: the monotonicity and ordering facts evaluated on the
fresh worker, one clean channel turn, and an unsorted two-item channel
view above cursor 4. -/
theorem c9_cursor_monotone_ordered_witness :
    lookupCursor ws0.cursors 1 ≤
      lookupCursor (runCycle 2 ws0 [(1, inpClear)]).cursors 1 ∧
    lookupCursor (restart ws0).cursors 1 = lookupCursor ws0.cursors 1 ∧
    List.Sorted itemLE (readItemsSince [itemB, itemA] 4) ∧
    (∀ m ∈ readItemsSince [itemB, itemA] 4, 4 < m.item_id) ∧
    (∀ c ∈ chunkItems 2 (readItemsSince [itemB, itemA] 4),
      List.Sorted itemLE c) ∧
    (chunkItems 2 (readItemsSince [itemB, itemA] 4)).flatten =
      readItemsSince [itemB, itemA] 4 :=
  c9_cursor_monotone_ordered 2 ws0 [(1, inpClear)] 1 4 [itemB, itemA]

/-- C10 counterexample: the claim fails as stated — the subscribe
callback filters incoming products only against ids already in the
list, not within the incoming batch itself, so an incoming batch that
repeats an id yields a duplicated id in the alerts list. -/
theorem c10_duplicate_incoming_breaks_uniqueness :
    ¬ (((subscribeUpdate true []
        [{ id := "1", payload := "a" }, { id := "1", payload := "b" }]).map
      Product.id).Nodup) := by
  decide

/-- C10 (amended): both HomeScreen merges preserve id-uniqueness of the
alerts list provided the incoming batch/page itself carries pairwise
distinct ids — the filters guarantee no incoming item duplicates an id
already present, and the premium truncation keeps a sublist. -/
theorem c10_merge_preserves_id_uniqueness (isPremium : Bool)
    (prev newProducts data : List Product)
    (hprev : (prev.map Product.id).Nodup)
    (hnew : (newProducts.map Product.id).Nodup)
    (hdata : (data.map Product.id).Nodup) :
    ((subscribeUpdate isPremium prev newProducts).map Product.id).Nodup ∧
    ((fetchAlertsMerge prev data).map Product.id).Nodup := by
  constructor
  · have hcomb := combined_ids_nodup prev newProducts hprev hnew
    simp only [subscribeUpdate]
    split
    · rw [List.map_take]
      exact List.Nodup.sublist (List.take_sublist 4 _) hcomb
    · exact hcomb
  · simp only [fetchAlertsMerge]
    rw [List.map_append]
    exact List.nodup_append.mpr
      ⟨hprev, filteredIds_nodup data prev hdata,
        List.Disjoint.symm (filteredIds_disjoint data prev)⟩

/-- C10 witness: a page and a live batch with distinct ids, one of which
collides with the list — both merges keep the ids unique. -/
theorem c10_merge_preserves_id_uniqueness_witness :
    ((subscribeUpdate false [{ id := "1", payload := "a" }]
        [{ id := "1", payload := "c" }, { id := "2", payload := "d" }]).map
      Product.id).Nodup ∧
    ((fetchAlertsMerge [{ id := "1", payload := "a" }]
        [{ id := "1", payload := "c" }, { id := "2", payload := "d" }]).map
      Product.id).Nodup :=
  c10_merge_preserves_id_uniqueness false [{ id := "1", payload := "a" }]
    [{ id := "1", payload := "c" }, { id := "2", payload := "d" }]
    [{ id := "1", payload := "c" }, { id := "2", payload := "d" }]
    (by decide) (by decide) (by decide)

end DcScrape
